import Mathlib

/-!
Shallow embedding of the ssh_tunnel repository (Go) and verification of its
specification claims.

The embedding covers:
* mesh virtual-address allocation (`assignMeshIP`, `nextIP`, `isIPUsed` from
  the mesh package),
* the config-file encryption wrapper (`encrypt`, `decrypt` over AES-256-GCM,
  hex encoding and the textual marker, from the config package),
* the tunnel manager lifecycle (`Start`, `StartTunnel`, `StopAllTunnels`,
  `startBestLatency`, `createTunnel` from the protocols package),
* mesh node scoring, selection, health checks and load balancing
  (`GetBestNode`, `calculateNodeScore`, `performHealthCheck`, `LoadBalance`).

Conventions: Go byte strings are `List Nat` with entries `< 256`; Go
`time.Duration` is a `Nat` count of nanoseconds; Go `float64` arithmetic is
modelled over `ℚ`; Go maps are association lists, and because Go map
iteration order is unspecified, functions that range over a map take the
iteration order as an explicit list argument.
-/

namespace SSHTunnel

/-! ### Mesh virtual-address allocation

Go source (mesh package): `nextIP` increments a 4-byte IPv4 address with
byte carry, which on the 4-byte addresses produced by `net.ParseCIDR` is
exactly `+1 mod 2^32`.  `isIPUsed` scans the registered nodes' mesh IPs.
`assignMeshIP` starts from the parsed network address and repeatedly takes
`nextIP` until it finds an unused address; the Go loop is unbounded, so the
embedding runs it on explicit fuel and we prove below that
`usedIPs.length + 1` fuel always suffices. -/

/-- Go `nextIP` from the mesh package: byte-carry increment of an IPv4 address,
i.e. `+1 mod 2^32` on the numeric value. -/
def nextIP (ip : Nat) : Nat := (ip + 1) % 2 ^ 32

/-- Go `isIPUsed` from the mesh package: is `ip` already some node's mesh IP? -/
def isIPUsed (usedIPs : List Nat) (ip : Nat) : Bool := usedIPs.contains ip

/-- The unbounded `for` loop inside `assignMeshIP`, run on explicit fuel:
repeatedly advance with `nextIP` and return the first address not in use. -/
def scanIP (usedIPs : List Nat) : Nat → Nat → Option Nat
  | 0, _ => none
  | fuel + 1, ip =>
    let ip' := nextIP ip
    if isIPUsed usedIPs ip' then scanIP usedIPs fuel ip' else some ip'

/-- Go `assignMeshIP` from the mesh package, with the registered mesh IPs and
the parsed network address made explicit.  Fuel `usedIPs.length + 1` is
sufficient for the scan to terminate with an address
(`scanIP_isSome` below), so the `none` case is unreachable: the Go loop
never fails, in particular it never reports address exhaustion. -/
def assignMeshIP (usedIPs : List Nat) (networkIP : Nat) : Option Nat :=
  scanIP usedIPs (usedIPs.length + 1) networkIP

theorem scanIP_not_used {usedIPs : List Nat} :
    ∀ {fuel ip r : Nat}, scanIP usedIPs fuel ip = some r → r ∉ usedIPs := by
  intro fuel
  induction fuel with
  | zero => intro ip r h; simp [scanIP] at h
  | succ n ih =>
    intro ip r h
    simp only [scanIP] at h
    by_cases hu : isIPUsed usedIPs (nextIP ip)
    · rw [if_pos hu] at h; exact ih h
    · rw [if_neg hu] at h
      cases h
      simpa [isIPUsed, List.contains] using hu

theorem scanIP_none_all_used {usedIPs : List Nat} :
    ∀ {fuel ip : Nat}, scanIP usedIPs fuel ip = none →
      ∀ k, 1 ≤ k → k ≤ fuel → ((ip + k) % 2 ^ 32) ∈ usedIPs := by
  intro fuel
  induction fuel with
  | zero => intro ip _ k h1 h2; omega
  | succ n ih =>
    intro ip h k h1 h2
    simp only [scanIP] at h
    by_cases hu : isIPUsed usedIPs (nextIP ip)
    · rw [if_pos hu] at h
      rcases Nat.lt_or_ge k 2 with hk | hk
      · have hk1 : k = 1 := by omega
        subst hk1
        simpa [isIPUsed, List.contains, nextIP] using hu
      · have := ih h (k - 1) (by omega) (by omega)
        have harith : (nextIP ip + (k - 1)) % 2 ^ 32 = (ip + k) % 2 ^ 32 := by
          unfold nextIP
          rw [Nat.mod_add_mod]
          congr 1
          omega
        rwa [harith] at this
    · rw [if_neg hu] at h
      exact absurd h (by simp)

theorem scanIP_isSome (usedIPs : List Nat) (ip : Nat)
    (hcard : usedIPs.length < 2 ^ 32) :
    ∃ r, scanIP usedIPs (usedIPs.length + 1) ip = some r := by
  by_contra hnone
  push_neg at hnone
  have h : scanIP usedIPs (usedIPs.length + 1) ip = none := by
    cases hs : scanIP usedIPs (usedIPs.length + 1) ip with
    | none => rfl
    | some r => exact absurd hs (hnone r)
  have hall := scanIP_none_all_used h
  -- the candidate addresses `ip + 1, …, ip + (length + 1)` are pairwise
  -- distinct modulo `2 ^ 32`, yet all lie in `usedIPs`: pigeonhole.
  set L := usedIPs.length with hL
  have hinj : Set.InjOn (fun k => (ip + k) % 2 ^ 32) (Finset.Icc 1 (L + 1)) := by
    intro a ha b hb hab
    simp only [Finset.coe_Icc, Set.mem_Icc] at ha hb
    simp only at hab
    rcases Nat.le_total a b with hle | hle
    · have hmod : ip + a ≡ ip + b [MOD 2 ^ 32] := hab
      have hdvd : (2 ^ 32 : Nat) ∣ (ip + b) - (ip + a) :=
        (Nat.modEq_iff_dvd' (by omega)).mp hmod
      rcases Nat.eq_zero_or_pos (ip + b - (ip + a)) with h0 | hpos
      · omega
      · have := Nat.le_of_dvd hpos hdvd
        omega
    · have hmod : ip + b ≡ ip + a [MOD 2 ^ 32] := hab.symm
      have hdvd : (2 ^ 32 : Nat) ∣ (ip + a) - (ip + b) :=
        (Nat.modEq_iff_dvd' (by omega)).mp hmod
      rcases Nat.eq_zero_or_pos (ip + a - (ip + b)) with h0 | hpos
      · omega
      · have := Nat.le_of_dvd hpos hdvd
        omega
  have hsub : (Finset.Icc 1 (L + 1)).image (fun k => (ip + k) % 2 ^ 32) ⊆
      usedIPs.toFinset := by
    intro x hx
    simp only [Finset.mem_image, Finset.mem_Icc] at hx
    rcases hx with ⟨k, ⟨hk1, hk2⟩, rfl⟩
    simpa using hall k hk1 hk2
  have hcard1 : ((Finset.Icc 1 (L + 1)).image (fun k => (ip + k) % 2 ^ 32)).card
      = L + 1 := by
    rw [Finset.card_image_of_injOn hinj, Nat.card_Icc]
    omega
  have hcard2 : usedIPs.toFinset.card ≤ L := List.toFinset_card_le usedIPs
  have := Finset.card_le_card hsub
  omega

/-- Claim C1 (amended): mesh-IP allocation never fails.  For any set of
already-registered mesh IPs (fewer than `2^32` of them) and any network
address, `assignMeshIP` returns an address, and that address is not
registered yet — so consecutive `AddServer` calls always succeed and the
assigned virtual addresses stay unique among registered nodes; no
`AddressExhausted` failure exists anywhere in the allocator. -/
theorem assignMeshIP_total_fresh (usedIPs : List Nat) (networkIP : Nat)
    (hcard : usedIPs.length < 2 ^ 32) :
    ∃ ip, assignMeshIP usedIPs networkIP = some ip ∧ ip ∉ usedIPs := by
  obtain ⟨r, hr⟩ := scanIP_isSome usedIPs networkIP hcard
  exact ⟨r, hr, scanIP_not_used hr⟩

/-- Witness for `assignMeshIP_total_fresh` at a concrete input: the
`10.0.0.0/30` block with the local node's `10.0.0.1` registered. -/
theorem assignMeshIP_total_fresh_witness :
    [167772161].length < 2 ^ 32 ∧
      ∃ ip, assignMeshIP [167772161] 167772160 = some ip ∧ ip ∉ [167772161] :=
  ⟨by decide, assignMeshIP_total_fresh [167772161] 167772160 (by decide)⟩

/-- Claim C1 is false on the code: take the block `10.0.0.0/30`
(network address `167772160 = 10.0.0.0`), which has `N = 2` usable host
addresses (`10.0.0.1`, `10.0.0.2`).  After the local node reserves
`10.0.0.1` and one `AddServer` takes `10.0.0.2`, the claim says the next
(`N`-th) `AddServer` fails with `AddressExhausted`; instead the allocator
succeeds and hands out `167772163 = 10.0.0.3`, the block's broadcast
address, and the call after that succeeds with `167772164 = 10.0.0.4`,
which lies outside the `/30` block entirely (the block ends at
`167772163`). -/
theorem assignMeshIP_block_full_succeeds_cex :
    assignMeshIP [167772161, 167772162] 167772160 = some 167772163 ∧
      assignMeshIP [167772161, 167772162, 167772163] 167772160
        = some 167772164 ∧ 167772163 < 167772164 := by
  refine ⟨?_, ?_, by decide⟩ <;> decide

/-! ### Config-file encryption (config package)

Go source: `encrypt` derives a 32-byte key as `sha256.Sum256(password)`,
draws a random nonce of `gcm.NonceSize()` bytes, seals with AES-256-GCM
(`gcm.Seal(nonce, nonce, data, nil)`, i.e. the sealed bytes are appended to
the nonce) and writes `"ENC:" + hex(nonce ++ sealed)`.  `decrypt` checks the
`"ENC:"` marker, hex-decodes, splits off the nonce and calls `gcm.Open`.
The hash and the AEAD are Go standard-library primitives, not code of this
repository; the embedding abstracts them as a structure and the theorems
take their documented contract (round-trip, authentication) as hypotheses.
The random nonce is an explicit argument of `encrypt`. -/

/-- Lowercase hex digit of a nibble, as its ASCII byte
(Go `encoding/hex` alphabet `0123456789abcdef`). -/
def hexDigit (n : Nat) : Nat := if n < 10 then 48 + n else 87 + n

/-- Hex encoding of one byte, high nibble first (Go `hex.EncodeToString`). -/
def hexEncodeByte (b : Nat) : List Nat := [hexDigit (b / 16), hexDigit (b % 16)]

/-- Go `hex.EncodeToString` over a byte string. -/
def hexEncode (bs : List Nat) : List Nat := bs.flatMap hexEncodeByte

/-- Go `encoding/hex.fromHexChar`: value of one hex character, accepting
both cases, `none` on an invalid character. -/
def fromHexChar (c : Nat) : Option Nat :=
  if 48 ≤ c ∧ c ≤ 57 then some (c - 48)
  else if 97 ≤ c ∧ c ≤ 102 then some (c - 87)
  else if 65 ≤ c ∧ c ≤ 70 then some (c - 55)
  else none

/-- Go `hex.DecodeString`: fails on odd length or an invalid character. -/
def hexDecode : List Nat → Option (List Nat)
  | [] => some []
  | [_] => none
  | hi :: lo :: rest =>
    match fromHexChar hi, fromHexChar lo, hexDecode rest with
    | some h, some l, some bs => some ((h * 16 + l) :: bs)
    | _, _, _ => none

/-- Abstract interface for the Go standard-library primitives the config
package uses: `keyDerive` stands for `sha256.Sum256`, `seal`/`unseal` for
AES-GCM `Seal` (without its destination argument) and `Open`, and
`nonceSize` for `gcm.NonceSize()`. -/
structure AEAD where
  keyDerive : List Nat → List Nat
  sealFn : List Nat → List Nat → List Nat → List Nat
  openFn : List Nat → List Nat → List Nat → Option (List Nat)
  nonceSize : Nat

/-- The ASCII bytes of the `"ENC:"` marker. -/
def encMagic : List Nat := [69, 78, 67, 58]

/-- Go `encrypt` from the config package: marker plus hex of nonce-prefixed
AEAD sealing under the passphrase-derived key. -/
def encrypt (g : AEAD) (data pw nonce : List Nat) : List Nat :=
  encMagic ++ hexEncode (nonce ++ g.sealFn (g.keyDerive pw) nonce data)

/-- Go `decrypt` from the config package: require the `"ENC:"` marker,
hex-decode, split off the nonce, and open; every failure is an error,
mirroring the Go error returns. -/
def decrypt (g : AEAD) (data pw : List Nat) : Except String (List Nat) :=
  match data with
  | 69 :: 78 :: 67 :: 58 :: rest =>
    match hexDecode rest with
    | none => .error "hex decode error"
    | some encrypted =>
      if encrypted.length < g.nonceSize then .error "ciphertext too short"
      else
        match g.openFn (g.keyDerive pw) (encrypted.take g.nonceSize)
            (encrypted.drop g.nonceSize) with
        | some plain => .ok plain
        | none => .error "message authentication failed"
  | _ => .error "not encrypted data"

theorem fromHexChar_hexDigit {n : Nat} (h : n < 16) :
    fromHexChar (hexDigit n) = some n := by
  unfold hexDigit fromHexChar
  by_cases h10 : n < 10
  · rw [if_pos h10, if_pos (by omega)]
    congr 1
    omega
  · rw [if_neg h10, if_neg (by omega), if_pos (by omega)]
    congr 1
    omega

theorem hexDecode_hexEncode {bs : List Nat} (h : ∀ b ∈ bs, b < 256) :
    hexDecode (hexEncode bs) = some bs := by
  induction bs with
  | nil => rfl
  | cons b rest ih =>
    have hb : b < 256 := h b (List.mem_cons_self b rest)
    have hrest : ∀ x ∈ rest, x < 256 := fun x hx => h x (List.mem_cons_of_mem b hx)
    have hcons : hexEncode (b :: rest) =
        hexDigit (b / 16) :: hexDigit (b % 16) :: hexEncode rest := by
      simp [hexEncode, List.flatMap_cons, hexEncodeByte]
    rw [hcons]
    unfold hexDecode
    rw [fromHexChar_hexDigit (by omega), fromHexChar_hexDigit (by omega), ih hrest]
    simp only [Option.some.injEq, List.cons.injEq]
    exact ⟨by omega, trivial⟩

/-- Claim C2: with the library AEAD contract as hypotheses — opening a
sealing under the same key returns the plaintext, and opening it under the
key derived from a different passphrase fails — the config wrapper
round-trips: `decrypt (encrypt data pw) pw` returns exactly `data`, and
`decrypt (encrypt data pw1) pw2` with `pw1 ≠ pw2` returns an error and
never a successful plaintext. -/
theorem encrypt_decrypt_roundtrip_auth (g : AEAD) (data pw1 pw2 nonce : List Nat)
    (hpw : pw1 ≠ [])
    (hnl : nonce.length = g.nonceSize)
    (hnv : ∀ b ∈ nonce, b < 256)
    (hsv : ∀ b ∈ g.sealFn (g.keyDerive pw1) nonce data, b < 256)
    (hrt : g.openFn (g.keyDerive pw1) nonce (g.sealFn (g.keyDerive pw1) nonce data)
      = some data)
    (hauth : pw1 ≠ pw2 →
      g.openFn (g.keyDerive pw2) nonce (g.sealFn (g.keyDerive pw1) nonce data)
        = none) :
    decrypt g (encrypt g data pw1 nonce) pw1 = Except.ok data ∧
      (pw1 ≠ pw2 →
        ∃ msg, decrypt g (encrypt g data pw1 nonce) pw2 = Except.error msg) := by
  have hvalid : ∀ b ∈ nonce ++ g.sealFn (g.keyDerive pw1) nonce data, b < 256 := by
    intro b hb
    rcases List.mem_append.mp hb with hb | hb
    · exact hnv b hb
    · exact hsv b hb
  have hdec : hexDecode (hexEncode (nonce ++ g.sealFn (g.keyDerive pw1) nonce data))
      = some (nonce ++ g.sealFn (g.keyDerive pw1) nonce data) :=
    hexDecode_hexEncode hvalid
  have hlen : ¬ (nonce ++ g.sealFn (g.keyDerive pw1) nonce data).length < g.nonceSize := by
    rw [List.length_append, hnl]
    omega
  have htake : (nonce ++ g.sealFn (g.keyDerive pw1) nonce data).take g.nonceSize
      = nonce := by
    rw [← hnl]
    exact List.take_left nonce _
  have hdrop : (nonce ++ g.sealFn (g.keyDerive pw1) nonce data).drop g.nonceSize
      = g.sealFn (g.keyDerive pw1) nonce data := by
    rw [← hnl]
    exact List.drop_left nonce _
  constructor
  · show decrypt g (encMagic ++ _) pw1 = Except.ok data
    simp only [encMagic, List.cons_append, List.nil_append, decrypt, hdec,
      if_neg hlen, htake, hdrop, hrt]
  · intro hne
    show ∃ msg, decrypt g (encMagic ++ _) pw2 = Except.error msg
    refine ⟨"message authentication failed", ?_⟩
    simp only [encMagic, List.cons_append, List.nil_append, decrypt, hdec,
      if_neg hlen, htake, hdrop, hauth hne]

/-- A concrete instantiation of the abstract AEAD interface, used only to
witness that the hypotheses of `encrypt_decrypt_roundtrip_auth` are
satisfiable: the key is the passphrase itself, sealing prepends the key,
opening checks and strips it. -/
def testAEAD : AEAD where
  keyDerive := fun pw => pw
  sealFn := fun k _ d => k ++ d
  openFn := fun k _ c => if c.take k.length = k then some (c.drop k.length) else none
  nonceSize := 12

/-- Witness for `encrypt_decrypt_roundtrip_auth` at a concrete input. -/
theorem encrypt_decrypt_roundtrip_auth_witness :
    decrypt testAEAD (encrypt testAEAD [7, 8] [0] (List.replicate 12 0)) [0]
        = Except.ok [7, 8] ∧
      ∃ msg, decrypt testAEAD (encrypt testAEAD [7, 8] [0] (List.replicate 12 0)) [1]
        = Except.error msg := by
  have h := encrypt_decrypt_roundtrip_auth testAEAD [7, 8] [0] [1]
    (List.replicate 12 0) (by decide) (by decide) (by decide) (by decide)
    (by decide) (fun _ => by decide)
  exact ⟨h.1, h.2 (by decide)⟩

/-! ### Tunnel manager (protocols package)

Go source: `TunnelManager` owns two maps keyed by server name, `tunnels`
(adapters) and `status`.  The embedding keeps both as association lists;
each adapter is represented by the outcome of its `Stop` call (`none` =
`Stop` returns nil, `some e` = it returns error `e`), which is all the
manager observes from it in the operations verified here.  Durations are
nanosecond counts; `time.Hour` is `3600000000000`. -/

/-- Go `TunnelStatus` from the protocols package. -/
structure TunnelStatus where
  serverName : String
  status : String
  startTime : Nat
  lastError : String
  bytesSent : Nat
  bytesRecv : Nat
  latency : Nat
deriving DecidableEq

/-- The tunnel manager's maps: adapters (with their `Stop` outcome) and
status records, keyed by server name. -/
structure TunnelManager where
  tunnels : List (String × Option String)
  status : List (String × TunnelStatus)
deriving DecidableEq

/-- In-place mutation of the status record for `name` (Go writes through
the `*TunnelStatus` pointer stored in the map). -/
def updateStatusEntry (st : List (String × TunnelStatus)) (name : String)
    (f : TunnelStatus → TunnelStatus) : List (String × TunnelStatus) :=
  st.map (fun p => if p.1 = name then (p.1, f p.2) else p)

/-- Go `StartTunnel` from the protocols package: unknown names fail with
"not found"; otherwise the status is unconditionally set to
`"connecting"`, the start timestamp is reset to `now`, and the adapter's
`Start` is dispatched on a fresh goroutine — the returned `Bool` records
that this dispatch happened (the goroutine's own later transition to
`"connected"`/`"error"` is asynchronous and outside this step). -/
def StartTunnel (tm : TunnelManager) (serverName : String) (now : Nat) :
    Except String (TunnelManager × Bool) :=
  if (tm.tunnels.map Prod.fst).contains serverName then
    .ok ({ tm with
      status := updateStatusEntry tm.status serverName
        (fun s => { s with status := "connecting", startTime := now }) }, true)
  else
    .error ("tunnel " ++ serverName ++ " not found")

/-- The loop shared by `Stop` and `StopAllTunnels`: call every adapter's
`Stop`, collecting (not aborting on) error messages, and set every
affected status record to `"disconnected"` regardless of the adapter
outcome.  Returns the updated manager and the collected error messages;
the Go functions then return an aggregate error exactly when the list is
non-empty. -/
def StopAllTunnels (tm : TunnelManager) : TunnelManager × List String :=
  let r := tm.tunnels.foldl
    (fun (acc : List (String × TunnelStatus) × List String) t =>
      (updateStatusEntry acc.1 t.1 (fun s => { s with status := "disconnected" }),
        acc.2 ++ (match t.2 with
          | some e => ["failed to stop tunnel " ++ t.1 ++ ": " ++ e]
          | none => [])))
    (tm.status, [])
  ({ tm with status := r.1 }, r.2)

/-- Go `time.Hour` in nanoseconds. -/
def hourNs : Nat := 3600000000000

/-- The loop body of `startBestLatency`: skip servers whose probe errored;
a strictly smaller latency becomes the new best. -/
def blStep (acc : String × Nat) (t : String × Option Nat) : String × Nat :=
  match t.2 with
  | none => acc
  | some lat => if lat < acc.2 then (t.1, lat) else acc

/-- Go `startBestLatency` from the protocols package: probe every tunnel in
map-iteration order `ts` (each entry carries its `Test()` outcome), keep
the strictly best latency starting from the sentinel
`bestLatency = time.Hour`, and fail when no server was selected.  The Go
function then calls `StartTunnel` on the winner. -/
def startBestLatency (ts : List (String × Option Nat)) : Except String String :=
  let r := ts.foldl blStep ("", hourNs)
  if r.1 = "" then .error "no available servers found" else .ok r.1

/-- Go `startRandom`: "just pick the first available" in map-iteration order. -/
def startRandom (ts : List (String × Option Nat)) : Except String String :=
  match ts with
  | [] => .error "no available servers found"
  | t :: _ => .ok t.1

/-- Go `startAutoSelected`: dispatch on the configured selection method;
`"load"` (`startLeastLoad`) and unknown methods fall back to
`startBestLatency`. -/
def startAutoSelected (method : String) (ts : List (String × Option Nat)) :
    Except String String :=
  if method = "latency" then startBestLatency ts
  else if method = "random" then startRandom ts
  else if method = "load" then startBestLatency ts
  else startBestLatency ts

/-- The fields of `config.Server` that the tunnel manager reads. -/
structure Server where
  name : String
  host : String
  port : String
  transport : String
  enabled : Bool
deriving DecidableEq

/-- Go `createTunnel` from the protocols package: the tagged switch over
transport kinds; a kind with no adapter fails with the
unsupported-transport error. -/
def createTunnel (server : Server) : Except String String :=
  if server.transport = "ssh" then .ok "ssh"
  else if server.transport = "hysteria" then .ok "hysteria"
  else if server.transport = "v2ray" ∨ server.transport = "vmess"
      ∨ server.transport = "vless" then .ok "v2ray"
  else if server.transport = "wireguard" then .ok "wireguard"
  else if server.transport = "trojan" then .ok "trojan"
  else .error ("unsupported transport type: " ++ server.transport)

/-- The status record `Start` registers for a freshly created tunnel
(Go zero values for every field except the name and `"disconnected"`). -/
def initialStatus (name : String) : TunnelStatus :=
  ⟨name, "disconnected", 0, "", 0, 0, 0⟩

/-- The registration loop of `Start`: disabled servers are skipped; a
failed `createTunnel` is logged and the server skipped; a successful one
registers the adapter and a `"disconnected"` status entry.  (The maps are
built by recursion on the server list; entry order is immaterial for a Go
map.) -/
def startRegister : List Server →
    List (String × Option String) × List (String × TunnelStatus)
  | [] => ([], [])
  | server :: rest =>
    let r := startRegister rest
    if server.enabled then
      match createTunnel server with
      | .error _ => r
      | .ok _ => ((server.name, none) :: r.1,
          (server.name, initialStatus server.name) :: r.2)
    else r

/-- Go `Start` from the protocols package: register adapters and statuses for
every enabled server, then, when auto-selection is on, run the configured
selection policy over the tunnel map (iteration order and `Test()`
outcomes given by `iter`) and start the winner. -/
def Start (servers : List Server) (autoSelect : Bool) (method : String)
    (iter : List (String × Option Nat)) (now : Nat) :
    TunnelManager × Except String Unit :=
  let r := startRegister servers
  let tm : TunnelManager := ⟨r.1, r.2⟩
  if autoSelect then
    match startAutoSelected method iter with
    | .error e => (tm, .error e)
    | .ok best =>
      match StartTunnel tm best now with
      | .error e => (tm, .error e)
      | .ok (tm', _) => (tm', .ok ())
  else (tm, .ok ())

/-- Claim C3 is false on the code: `StartTunnel` has no guard on the
current status.  A registered tunnel `"a"` whose status is `"connected"`
with start timestamp `5` is moved back to `"connecting"`, its start
timestamp is reset to the current time `9`, and the adapter's `Start` is
dispatched again (the `true` flag) — not a no-op. -/
theorem StartTunnel_connected_not_noop_cex :
    StartTunnel ⟨[("a", none)], [("a", ⟨"a", "connected", 5, "", 0, 0, 0⟩)]⟩ "a" 9
      = Except.ok
          (⟨[("a", none)], [("a", ⟨"a", "connecting", 9, "", 0, 0, 0⟩)]⟩, true) := by
  rfl

/-- Claim C3 (amended): starting an already-connected tunnel is not a
no-op.  For every registered tunnel whose status record shows
`"connected"`, `StartTunnel` succeeds, re-enters `"connecting"`, resets
the start timestamp to the current time, and dispatches the adapter's
`Start` again. -/
theorem StartTunnel_connected_redials (tm : TunnelManager) (name : String)
    (now : Nat) (s : TunnelStatus)
    (hmem : (tm.tunnels.map Prod.fst).contains name = true)
    (hs : (name, s) ∈ tm.status) (hconn : s.status = "connected") :
    ∃ tm', StartTunnel tm name now = Except.ok (tm', true) ∧
      (name, { s with status := "connecting", startTime := now }) ∈ tm'.status := by
  have hst : StartTunnel tm name now = Except.ok
      ({ tm with
          status := updateStatusEntry tm.status name
            (fun s0 => { s0 with status := "connecting", startTime := now }) },
        true) := by
    unfold StartTunnel
    rw [if_pos hmem]
  refine ⟨_, hst, ?_⟩
  have hmap := List.mem_map_of_mem
    (fun p : String × TunnelStatus =>
      if p.1 = name then (p.1, { p.2 with status := "connecting", startTime := now })
      else p) hs
  simpa [updateStatusEntry] using hmap

/-- Witness for `StartTunnel_connected_redials` at a concrete input. -/
theorem StartTunnel_connected_redials_witness :
    ∃ tm', StartTunnel ⟨[("w", none)], [("w", ⟨"w", "connected", 3, "", 0, 0, 0⟩)]⟩
        "w" 11 = Except.ok (tm', true) ∧
      ("w", (⟨"w", "connecting", 11, "", 0, 0, 0⟩ : TunnelStatus)) ∈ tm'.status := by
  have h := StartTunnel_connected_redials
    ⟨[("w", none)], [("w", ⟨"w", "connected", 3, "", 0, 0, 0⟩)]⟩ "w" 11
    ⟨"w", "connected", 3, "", 0, 0, 0⟩ (by decide) (by decide) rfl
  exact h

theorem updateStatusEntry_preserves (st : List (String × TunnelStatus))
    (m n : String)
    (h : ∀ p ∈ st, p.1 = n → p.2.status = "disconnected") :
    ∀ p ∈ updateStatusEntry st m (fun s => { s with status := "disconnected" }),
      p.1 = n → p.2.status = "disconnected" := by
  intro p hp hn
  simp only [updateStatusEntry, List.mem_map] at hp
  rcases hp with ⟨q, hq, rfl⟩
  by_cases hqm : q.1 = m
  · simp [hqm]
  · simp only [if_neg hqm] at hn ⊢
    exact h q hq hn

theorem updateStatusEntry_sets (st : List (String × TunnelStatus)) (m : String) :
    ∀ p ∈ updateStatusEntry st m (fun s => { s with status := "disconnected" }),
      p.1 = m → p.2.status = "disconnected" := by
  intro p hp hm
  simp only [updateStatusEntry, List.mem_map] at hp
  rcases hp with ⟨q, hq, rfl⟩
  by_cases hqm : q.1 = m
  · simp [hqm]
  · simp only [if_neg hqm] at hm ⊢
    exact absurd hm hqm

theorem stopFold_preserves (n : String) :
    ∀ (ts : List (String × Option String)) (st : List (String × TunnelStatus))
      (errs : List String),
      (∀ p ∈ st, p.1 = n → p.2.status = "disconnected") →
      ∀ p ∈ (ts.foldl
        (fun (acc : List (String × TunnelStatus) × List String) t =>
          (updateStatusEntry acc.1 t.1 (fun s => { s with status := "disconnected" }),
            acc.2 ++ (match t.2 with
              | some e => ["failed to stop tunnel " ++ t.1 ++ ": " ++ e]
              | none => []))) (st, errs)).1,
        p.1 = n → p.2.status = "disconnected" := by
  intro ts
  induction ts with
  | nil => intro st errs h; simpa using h
  | cons t rest ih =>
    intro st errs h
    rw [List.foldl_cons]
    exact ih _ _ (updateStatusEntry_preserves st t.1 n h)

theorem stopFold_disconnects (n : String) :
    ∀ (ts : List (String × Option String)) (st : List (String × TunnelStatus))
      (errs : List String),
      n ∈ ts.map Prod.fst →
      ∀ p ∈ (ts.foldl
        (fun (acc : List (String × TunnelStatus) × List String) t =>
          (updateStatusEntry acc.1 t.1 (fun s => { s with status := "disconnected" }),
            acc.2 ++ (match t.2 with
              | some e => ["failed to stop tunnel " ++ t.1 ++ ": " ++ e]
              | none => []))) (st, errs)).1,
        p.1 = n → p.2.status = "disconnected" := by
  intro ts
  induction ts with
  | nil => intro st errs h; simp at h
  | cons t rest ih =>
    intro st errs hmem
    rw [List.map_cons, List.mem_cons] at hmem
    rw [List.foldl_cons]
    rcases hmem with hmem | hmem
    · subst hmem
      exact stopFold_preserves _ rest _ _ (updateStatusEntry_sets st t.1)
    · exact ih _ _ hmem

theorem stopFold_errors :
    ∀ (ts : List (String × Option String)) (st : List (String × TunnelStatus))
      (errs : List String),
      (ts.foldl
        (fun (acc : List (String × TunnelStatus) × List String) t =>
          (updateStatusEntry acc.1 t.1 (fun s => { s with status := "disconnected" }),
            acc.2 ++ (match t.2 with
              | some e => ["failed to stop tunnel " ++ t.1 ++ ": " ++ e]
              | none => []))) (st, errs)).2
        = errs ++ ts.filterMap
            (fun t => t.2.map fun e => "failed to stop tunnel " ++ t.1 ++ ": " ++ e) := by
  intro ts
  induction ts with
  | nil => intro st errs; simp
  | cons t rest ih =>
    intro st errs
    rw [List.foldl_cons, List.filterMap_cons]
    rcases ht : t.2 with _ | e
    · simpa [ht] using ih _ errs
    · simp only [ht, Option.map_some]
      rw [ih]
      simp

/-- Claim C7: stopping always drives every registered tunnel's status to
`"disconnected"`, even when an adapter's `Stop` errors, and the adapter
stop errors are aggregated into the returned list (one message per failing
adapter, in order) instead of aborting the remaining stops.  The Go
`Stop`/`StopAllTunnels` then return an aggregate error exactly when that
list is non-empty. -/
theorem stop_disconnects_all (tm : TunnelManager) :
    (∀ p ∈ (StopAllTunnels tm).1.status,
        p.1 ∈ tm.tunnels.map Prod.fst → p.2.status = "disconnected") ∧
      (StopAllTunnels tm).2
        = tm.tunnels.filterMap
            (fun t => t.2.map fun e => "failed to stop tunnel " ++ t.1 ++ ": " ++ e) := by
  constructor
  · intro p hp hmem
    exact stopFold_disconnects p.1 tm.tunnels tm.status [] hmem p hp rfl
  · simpa using stopFold_errors tm.tunnels tm.status []

/-- Witness for `stop_disconnects_all` at a concrete input: two tunnels,
the first of whose adapters errors on `Stop`. -/
theorem stop_disconnects_all_witness :
    (("a", (⟨"a", "disconnected", 0, "", 0, 0, 0⟩ : TunnelStatus))).2.status
        = "disconnected" ∧
      (StopAllTunnels ⟨[("a", some "boom"), ("b", none)],
          [("a", ⟨"a", "connected", 0, "", 0, 0, 0⟩),
            ("b", ⟨"b", "connecting", 0, "", 0, 0, 0⟩)]⟩).2
        = ["failed to stop tunnel a: boom"] := by
  have h := stop_disconnects_all ⟨[("a", some "boom"), ("b", none)],
    [("a", ⟨"a", "connected", 0, "", 0, 0, 0⟩),
      ("b", ⟨"b", "connecting", 0, "", 0, 0, 0⟩)]⟩
  exact ⟨h.1 ("a", ⟨"a", "disconnected", 0, "", 0, 0, 0⟩) (by decide) (by decide),
    h.2.trans (by decide)⟩

theorem blFold_spec :
    ∀ (ts : List (String × Option Nat)) (acc : String × Nat),
      (ts.foldl blStep acc = acc ∨
        (((ts.foldl blStep acc).1, some (ts.foldl blStep acc).2) ∈ ts ∧
          (ts.foldl blStep acc).2 < acc.2)) ∧
      (∀ n l, (n, some l) ∈ ts → (ts.foldl blStep acc).2 ≤ l) ∧
      (ts.foldl blStep acc).2 ≤ acc.2 := by
  intro ts
  induction ts with
  | nil =>
    intro acc
    refine ⟨Or.inl rfl, ?_, le_refl _⟩
    intro n l h
    simp at h
  | cons t rest ih =>
    intro acc
    obtain ⟨tn, tl⟩ := t
    rw [List.foldl_cons]
    rcases tl with _ | lat
    · have hstep : blStep acc (tn, none) = acc := rfl
      rw [hstep]
      obtain ⟨hprov, hmin, hle⟩ := ih acc
      refine ⟨?_, ?_, hle⟩
      · rcases hprov with h | ⟨hmem, hlt⟩
        · exact Or.inl h
        · exact Or.inr ⟨List.mem_cons_of_mem _ hmem, hlt⟩
      · intro n l hnl
        rcases List.mem_cons.mp hnl with h | h
        · exact absurd h (by simp)
        · exact hmin n l h
    · have hstep : blStep acc (tn, some lat) =
          if lat < acc.2 then (tn, lat) else acc := rfl
      rw [hstep]
      by_cases hlt : lat < acc.2
      · rw [if_pos hlt]
        obtain ⟨hprov, hmin, hle⟩ := ih (tn, lat)
        refine ⟨?_, ?_, le_trans hle (Nat.le_of_lt hlt)⟩
        · rcases hprov with h | ⟨hmem, hlt2⟩
          · refine Or.inr ⟨?_, ?_⟩
            · rw [h]; exact List.mem_cons_self _ _
            · rw [h]; exact hlt
          · exact Or.inr ⟨List.mem_cons_of_mem _ hmem, lt_trans hlt2 hlt⟩
        · intro n l hnl
          rcases List.mem_cons.mp hnl with h | h
          · injection h with h1 h2
            injection h2 with h2
            subst h2
            exact hle
          · exact hmin n l h
      · rw [if_neg hlt]
        obtain ⟨hprov, hmin, hle⟩ := ih acc
        refine ⟨?_, ?_, hle⟩
        · rcases hprov with h | ⟨hmem, hlt2⟩
          · exact Or.inl h
          · exact Or.inr ⟨List.mem_cons_of_mem _ hmem, hlt2⟩
        · intro n l hnl
          rcases List.mem_cons.mp hnl with h | h
          · injection h with h1 h2
            injection h2 with h2
            subst h2
            exact le_trans hle (Nat.le_of_not_lt hlt)
          · exact hmin n l h

/-- Claim C4 is false on the code: `startBestLatency` ranges over the Go
map `tm.tunnels`, whose iteration order is unspecified, and keeps the
first tunnel seen on a tie (strict `<`).  With two tunnels configured in
the order `"a"`, `"b"` measuring the same 1ms latency, the iteration order
that visits `"b"` first — a permutation of the configuration order —
selects `"b"`, not the first-configured `"a"`: ties are not broken by
configuration order. -/
theorem startBestLatency_tie_order_cex :
    startBestLatency [("b", some 1000000), ("a", some 1000000)] = Except.ok "b" ∧
      [("b", some 1000000), ("a", some 1000000)].Perm
        [("a", some 1000000), ("b", some 1000000)] ∧
      "b" ≠ "a" :=
  ⟨by rfl, List.Perm.swap ("a", some 1000000) ("b", some 1000000) [],
    by decide⟩

/-- Claim C4 (amended): `startBestLatency` excludes every tunnel whose
probe errors, and selects — in map-iteration order, so latency ties go to
the first tunnel iterated, not necessarily the first configured — a
tunnel whose measured latency is strictly below the `time.Hour` sentinel
and minimal among all successful probes.  In the 80ms/25ms/45ms scenario
the unique minimum makes the choice order-independent: every iteration
order activates the 25ms tunnel. -/
theorem startBestLatency_min_latency :
    (∀ (ts : List (String × Option Nat)) (name : String),
      startBestLatency ts = Except.ok name →
        ∃ lat, (name, some lat) ∈ ts ∧ lat < hourNs ∧
          ∀ n l, (n, some l) ∈ ts → lat ≤ l) ∧
    (∀ ts : List (String × Option Nat),
      ts.Perm [("t80", some 80000000), ("t25", some 25000000),
        ("t45", some 45000000)] →
      startBestLatency ts = Except.ok "t25") := by
  constructor
  · intro ts name hok
    obtain ⟨hprov, hmin, hle⟩ := blFold_spec ts ("", hourNs)
    simp only [startBestLatency] at hok
    set r := ts.foldl blStep ("", hourNs) with hr
    by_cases hni : r.1 = ""
    · rw [if_pos hni] at hok
      exact absurd hok (by simp)
    · rw [if_neg hni] at hok
      have hname : r.1 = name := by
        simpa using hok
      rcases hprov with h | ⟨hmem, hlt⟩
      · rw [h] at hni
        exact absurd rfl hni
      · exact ⟨r.2, by rwa [hname] at hmem, hlt, hmin⟩
  · intro ts hperm
    obtain ⟨hprov, hmin, hle⟩ := blFold_spec ts ("", hourNs)
    set r := ts.foldl blStep ("", hourNs) with hr
    have hmem25 : ("t25", some 25000000) ∈ ts := hperm.mem_iff.mpr (by decide)
    have hle25 : r.2 ≤ 25000000 := hmin "t25" 25000000 hmem25
    rcases hprov with h | ⟨hmem, _⟩
    · rw [h] at hle25
      exact absurd hle25 (by decide)
    · have hmem' := hperm.mem_iff.mp hmem
      simp only [List.mem_cons, List.not_mem_nil, or_false] at hmem'
      rcases hmem' with h | h | h
      · have h2 : some r.2 = some 80000000 := congrArg Prod.snd h
        injection h2 with h2
        omega
      · have h1 : r.1 = "t25" := congrArg Prod.fst h
        simp only [startBestLatency, ← hr, h1]
        rw [if_neg (by decide : ¬("t25" : String) = "")]
      · have h2 : some r.2 = some 45000000 := congrArg Prod.snd h
        injection h2 with h2
        omega

/-- Witness for `startBestLatency_min_latency` at a concrete input: the
spec's own 80ms/25ms/45ms scenario in configuration order. -/
theorem startBestLatency_min_latency_witness :
    startBestLatency [("t80", some 80000000), ("t25", some 25000000),
      ("t45", some 45000000)] = Except.ok "t25" :=
  startBestLatency_min_latency.2 _ (List.Perm.refl _)

theorem startRegister_status_mem :
    ∀ (servers : List Server) (p : String × TunnelStatus),
      p ∈ (startRegister servers).2 →
        ∃ sv, sv ∈ servers ∧ sv.enabled = true ∧ (∃ a, createTunnel sv = .ok a) ∧
          p = (sv.name, initialStatus sv.name) := by
  intro servers
  induction servers with
  | nil => intro p hp; simp [startRegister] at hp
  | cons server rest ih =>
    intro p hp
    by_cases hen : server.enabled = true
    · rcases hct : createTunnel server with e | a
      · have heq : startRegister (server :: rest) = startRegister rest := by
          simp [startRegister, hen, hct]
        rw [heq] at hp
        obtain ⟨sv, hsv, h2, h3, h4⟩ := ih p hp
        exact ⟨sv, List.mem_cons_of_mem _ hsv, h2, h3, h4⟩
      · have heq : (startRegister (server :: rest)).2
            = (server.name, initialStatus server.name) :: (startRegister rest).2 := by
          simp [startRegister, hen, hct]
        rw [heq] at hp
        rcases List.mem_cons.mp hp with h | h
        · exact ⟨server, List.mem_cons_self _ _, hen, ⟨a, hct⟩, h⟩
        · obtain ⟨sv, hsv, h2, h3, h4⟩ := ih p h
          exact ⟨sv, List.mem_cons_of_mem _ hsv, h2, h3, h4⟩
    · have heq : startRegister (server :: rest) = startRegister rest := by
        simp [startRegister, hen]
      rw [heq] at hp
      obtain ⟨sv, hsv, h2, h3, h4⟩ := ih p hp
      exact ⟨sv, List.mem_cons_of_mem _ hsv, h2, h3, h4⟩

theorem startRegister_tunnels_mem :
    ∀ (servers : List Server) (p : String × Option String),
      p ∈ (startRegister servers).1 →
        ∃ sv, sv ∈ servers ∧ sv.enabled = true ∧ (∃ a, createTunnel sv = .ok a) ∧
          p = (sv.name, none) := by
  intro servers
  induction servers with
  | nil => intro p hp; simp [startRegister] at hp
  | cons server rest ih =>
    intro p hp
    by_cases hen : server.enabled = true
    · rcases hct : createTunnel server with e | a
      · have heq : startRegister (server :: rest) = startRegister rest := by
          simp [startRegister, hen, hct]
        rw [heq] at hp
        obtain ⟨sv, hsv, h2, h3, h4⟩ := ih p hp
        exact ⟨sv, List.mem_cons_of_mem _ hsv, h2, h3, h4⟩
      · have heq : (startRegister (server :: rest)).1
            = (server.name, none) :: (startRegister rest).1 := by
          simp [startRegister, hen, hct]
        rw [heq] at hp
        rcases List.mem_cons.mp hp with h | h
        · exact ⟨server, List.mem_cons_self _ _, hen, ⟨a, hct⟩, h⟩
        · obtain ⟨sv, hsv, h2, h3, h4⟩ := ih p h
          exact ⟨sv, List.mem_cons_of_mem _ hsv, h2, h3, h4⟩
    · have heq : startRegister (server :: rest) = startRegister rest := by
        simp [startRegister, hen]
      rw [heq] at hp
      obtain ⟨sv, hsv, h2, h3, h4⟩ := ih p hp
      exact ⟨sv, List.mem_cons_of_mem _ hsv, h2, h3, h4⟩

theorem startRegister_status_complete :
    ∀ (servers : List Server) (sv : Server) (a : String), sv ∈ servers →
      sv.enabled = true → createTunnel sv = .ok a →
      (sv.name, initialStatus sv.name) ∈ (startRegister servers).2 := by
  intro servers
  induction servers with
  | nil => intro sv a h; simp at h
  | cons server rest ih =>
    intro sv a hmem hen hok
    rcases List.mem_cons.mp hmem with h | h
    · subst h
      have heq : (startRegister (sv :: rest)).2
          = (sv.name, initialStatus sv.name) :: (startRegister rest).2 := by
        simp [startRegister, hen, hok]
      rw [heq]
      exact List.mem_cons_self _ _
    · have hin := ih sv a h hen hok
      by_cases hen2 : server.enabled = true
      · rcases hct : createTunnel server with e | b
        · have heq : startRegister (server :: rest) = startRegister rest := by
            simp [startRegister, hen2, hct]
          rw [heq]
          exact hin
        · have heq : (startRegister (server :: rest)).2
              = (server.name, initialStatus server.name)
                :: (startRegister rest).2 := by
            simp [startRegister, hen2, hct]
          rw [heq]
          exact List.mem_cons_of_mem _ hin
      · have heq : startRegister (server :: rest) = startRegister rest := by
          simp [startRegister, hen2]
        rw [heq]
        exact hin

/-- Claim C9: a config whose transport kind matches no adapter makes
`createTunnel` fail with the unsupported-transport error; `Start` then
skips it — it gets no adapter entry and no status entry at all (so in
particular none in `"connecting"`) — while every other enabled,
supported config is registered with a `"disconnected"` status, and
`Start` (auto-select off) still returns success rather than failing as a
whole. -/
theorem Start_skips_unsupported (servers : List Server) (bad : Server)
    (method : String) (iter : List (String × Option Nat)) (now : Nat)
    (hnodup : (servers.map Server.name).Nodup)
    (hbad : bad ∈ servers) (hen : bad.enabled = true)
    (hunsup : bad.transport ∉
      ["ssh", "hysteria", "v2ray", "vmess", "vless", "wireguard", "trojan"]) :
    createTunnel bad = .error ("unsupported transport type: " ++ bad.transport) ∧
      (∀ p ∈ (Start servers false method iter now).1.tunnels, p.1 ≠ bad.name) ∧
      (∀ p ∈ (Start servers false method iter now).1.status, p.1 ≠ bad.name) ∧
      (∀ good ∈ servers, good.enabled = true → ∀ a, createTunnel good = .ok a →
        (good.name, initialStatus good.name)
          ∈ (Start servers false method iter now).1.status) ∧
      (Start servers false method iter now).2 = Except.ok () := by
  have hct : createTunnel bad
      = .error ("unsupported transport type: " ++ bad.transport) := by
    obtain ⟨h1, h2, h3, h4, h5, h6, h7⟩ :
        ¬bad.transport = "ssh" ∧ ¬bad.transport = "hysteria"
          ∧ ¬bad.transport = "v2ray" ∧ ¬bad.transport = "vmess"
          ∧ ¬bad.transport = "vless" ∧ ¬bad.transport = "wireguard"
          ∧ ¬bad.transport = "trojan" := by
      simpa [not_or] using hunsup
    simp [createTunnel, h1, h2, h3, h4, h5, h6, h7]
  have hinj : ∀ x ∈ servers, ∀ y ∈ servers, x.name = y.name → x = y :=
    List.inj_on_of_nodup_map hnodup
  have hstart : Start servers false method iter now
      = (⟨(startRegister servers).1, (startRegister servers).2⟩, Except.ok ()) := by
    simp [Start]
  refine ⟨hct, ?_, ?_, ?_, ?_⟩
  · intro p hp
    rw [hstart] at hp
    obtain ⟨sv, hsv, hsven, ⟨a, hsvok⟩, rfl⟩ := startRegister_tunnels_mem servers p hp
    intro hname
    have : sv = bad := hinj sv hsv bad hbad hname
    rw [this, hct] at hsvok
    exact absurd hsvok (by simp)
  · intro p hp
    rw [hstart] at hp
    obtain ⟨sv, hsv, hsven, ⟨a, hsvok⟩, rfl⟩ := startRegister_status_mem servers p hp
    intro hname
    have : sv = bad := hinj sv hsv bad hbad hname
    rw [this, hct] at hsvok
    exact absurd hsvok (by simp)
  · intro good hgood hgen a hgok
    rw [hstart]
    exact startRegister_status_complete servers good a hgood hgen hgok
  · rw [hstart]

/-- Witness for `Start_skips_unsupported` at a concrete input: one SSH
server and one server with the unknown transport `"quic"`. -/
theorem Start_skips_unsupported_witness :
    (("g", initialStatus "g")
        ∈ (Start [⟨"g", "h", "22", "ssh", true⟩, ⟨"x", "h", "22", "quic", true⟩]
            false "latency" [] 0).1.status) ∧
      (Start [⟨"g", "h", "22", "ssh", true⟩, ⟨"x", "h", "22", "quic", true⟩]
          false "latency" [] 0).2 = Except.ok () := by
  have h := Start_skips_unsupported
    [⟨"g", "h", "22", "ssh", true⟩, ⟨"x", "h", "22", "quic", true⟩]
    ⟨"x", "h", "22", "quic", true⟩ "latency" [] 0 (by decide) (by decide) rfl
    (by decide)
  exact ⟨h.2.2.2.1 ⟨"g", "h", "22", "ssh", true⟩ (by decide) rfl "ssh" rfl,
    h.2.2.2.2⟩

/-! ### Mesh overlay nodes (mesh package)

`MeshNode` keeps the fields the verified operations read; key material and
the capability map are omitted.  `latency` and `lastSeen` are nanosecond
counts; `loadScore` is a Go `float64`, modelled over `ℚ`.  The Go code
excludes the local node by pointer comparison with `mn.localNode`; the
embedding identifies it by `localId`. -/

structure MeshNode where
  id : String
  name : String
  publicIP : String
  meshIP : String
  port : Nat
  status : String
  lastSeen : Nat
  loadScore : ℚ
  latency : Nat
  region : String
  tags : List String
deriving DecidableEq

/-- Go `calculateNodeScore` from the mesh package: `0.4`-weighted inverse
latency (`1000.0 / float64(ms + 1)` with `ms` the truncated
nanoseconds-to-milliseconds division) plus `0.3`-weighted `1 − loadScore`,
plus `100` for an online node, plus `50` when the criteria string is
non-empty and equals the region. -/
def calculateNodeScore (node : MeshNode) (criteria : String) : ℚ :=
  let latencyScore : ℚ := 1000 / (((node.latency / 1000000 : Nat) : ℚ) + 1)
  let score := latencyScore * 0.4 + (1 - node.loadScore) * 0.3
  let score := if node.status = "online" then score + 100 else score
  if criteria ≠ "" ∧ node.region = criteria then score + 50 else score

/-- The loop body of `GetBestNode`: skip nodes that are not online or are
the local node; a strictly greater score displaces the current best. -/
def gbnStep (localId criteria : String) (acc : Option (MeshNode × ℚ))
    (node : MeshNode) : Option (MeshNode × ℚ) :=
  if node.status ≠ "online" ∨ node.id = localId then acc
  else
    let score := calculateNodeScore node criteria
    match acc with
    | none => some (node, score)
    | some (_, bestScore) => if score > bestScore then some (node, score) else acc

/-- Go `GetBestNode` from the mesh package, ranging over the node map in
iteration order `nodes`. -/
def GetBestNode (nodes : List MeshNode) (localId criteria : String) :
    Except String MeshNode :=
  match nodes.foldl (gbnStep localId criteria) none with
  | none => .error "no available nodes found"
  | some (node, _) => .ok node

theorem gbnFold_isSome (localId criteria : String) :
    ∀ (nodes : List MeshNode) (acc : Option (MeshNode × ℚ)),
      acc.isSome → (nodes.foldl (gbnStep localId criteria) acc).isSome := by
  intro nodes
  induction nodes with
  | nil => intro acc h; simpa using h
  | cons n rest ih =>
    intro acc h
    rw [List.foldl_cons]
    apply ih
    unfold gbnStep
    rcases acc with _ | p
    · simp at h
    · by_cases hskip : n.status ≠ "online" ∨ n.id = localId
      · rw [if_pos hskip]; simp
      · rw [if_neg hskip]
        obtain ⟨b, s⟩ := p
        by_cases hgt : calculateNodeScore n criteria > s
        · simp [hgt]
        · simp [hgt]

theorem gbnFold_none_iff (localId criteria : String) :
    ∀ nodes : List MeshNode,
      nodes.foldl (gbnStep localId criteria) none = none ↔
        ∀ n ∈ nodes, ¬(n.status = "online" ∧ n.id ≠ localId) := by
  intro nodes
  induction nodes with
  | nil => simp
  | cons n rest ih =>
    rw [List.foldl_cons]
    by_cases hskip : n.status ≠ "online" ∨ n.id = localId
    · have hstep : gbnStep localId criteria none n = none := by
        unfold gbnStep
        rw [if_pos hskip]
      rw [hstep, ih]
      constructor
      · intro h m hm
        rcases List.mem_cons.mp hm with hm | hm
        · subst hm
          tauto
        · exact h m hm
      · intro h m hm
        exact h m (List.mem_cons_of_mem _ hm)
    · have hstep : gbnStep localId criteria none n
          = some (n, calculateNodeScore n criteria) := by
        unfold gbnStep
        rw [if_neg hskip]
      rw [hstep]
      constructor
      · intro h
        have := gbnFold_isSome localId criteria rest
          (some (n, calculateNodeScore n criteria)) (by simp)
        rw [h] at this
        simp at this
      · intro h
        exfalso
        apply hskip
        have := h n (List.mem_cons_self _ _)
        tauto

theorem gbnFold_mem (localId criteria : String) :
    ∀ (nodes : List MeshNode) (acc : Option (MeshNode × ℚ)) (b : MeshNode) (s : ℚ),
      nodes.foldl (gbnStep localId criteria) acc = some (b, s) →
        acc = some (b, s) ∨
          (b ∈ nodes ∧ b.status = "online" ∧ b.id ≠ localId ∧
            s = calculateNodeScore b criteria) := by
  intro nodes
  induction nodes with
  | nil => intro acc b s h; exact Or.inl (by simpa using h)
  | cons n rest ih =>
    intro acc b s h
    rw [List.foldl_cons] at h
    rcases ih _ b s h with hstep | ⟨hmem, hb⟩
    · -- the head step already produced (b, s)
      unfold gbnStep at hstep
      by_cases hskip : n.status ≠ "online" ∨ n.id = localId
      · rw [if_pos hskip] at hstep
        exact Or.inl hstep
      · rw [if_neg hskip] at hstep
        push_neg at hskip
        rcases acc with _ | ⟨b0, s0⟩
        · simp only [Option.some.injEq, Prod.mk.injEq] at hstep
          exact Or.inr ⟨by rw [← hstep.1]; exact List.mem_cons_self _ _,
            by rw [← hstep.1]; exact hskip.1, by rw [← hstep.1]; exact hskip.2,
            by rw [← hstep.1, ← hstep.2]⟩
        · by_cases hgt : calculateNodeScore n criteria > s0
          · simp only [hgt, if_pos, Option.some.injEq, Prod.mk.injEq] at hstep
            exact Or.inr ⟨by rw [← hstep.1]; exact List.mem_cons_self _ _,
              by rw [← hstep.1]; exact hskip.1, by rw [← hstep.1]; exact hskip.2,
              by rw [← hstep.1, ← hstep.2]⟩
          · simp only [hgt, if_neg, not_false_iff] at hstep
            exact Or.inl hstep
    · exact Or.inr ⟨List.mem_cons_of_mem _ hmem, hb⟩

theorem gbnFold_ge (localId criteria : String) :
    ∀ (nodes : List MeshNode) (acc : Option (MeshNode × ℚ)) (b : MeshNode) (s : ℚ),
      nodes.foldl (gbnStep localId criteria) acc = some (b, s) →
        (∀ n ∈ nodes, n.status = "online" → n.id ≠ localId →
          calculateNodeScore n criteria ≤ s) ∧
        (∀ b0 s0, acc = some (b0, s0) → s0 ≤ s) := by
  intro nodes
  induction nodes with
  | nil =>
    intro acc b s h
    refine ⟨by simp, ?_⟩
    intro b0 s0 h0
    rw [h0] at h
    simp only [List.foldl_nil, Option.some.injEq, Prod.mk.injEq] at h
    exact le_of_eq h.2
  | cons n rest ih =>
    intro acc b s h
    rw [List.foldl_cons] at h
    obtain ⟨hrest, hacc⟩ := ih _ b s h
    have hstepge : ∀ b1 s1, gbnStep localId criteria acc n = some (b1, s1) →
        s1 ≤ s := fun b1 s1 h1 => hacc b1 s1 h1
    constructor
    · intro m hm hon hnl
      rcases List.mem_cons.mp hm with hm | hm
      · subst hm
        -- the head node is eligible, so the step result's score is ≥ its score
        have hskip : ¬(m.status ≠ "online" ∨ m.id = localId) := by
          push_neg
          exact ⟨hon, hnl⟩
        rcases hacc' : acc with _ | ⟨b0, s0⟩
        · have hstep : gbnStep localId criteria acc m
              = some (m, calculateNodeScore m criteria) := by
            rw [hacc']
            unfold gbnStep
            rw [if_neg hskip]
          exact hstepge _ _ hstep
        · by_cases hgt : calculateNodeScore m criteria > s0
          · have hstep : gbnStep localId criteria acc m
                = some (m, calculateNodeScore m criteria) := by
              rw [hacc']
              unfold gbnStep
              rw [if_neg hskip]
              simp [hgt]
            exact hstepge _ _ hstep
          · have hstep : gbnStep localId criteria acc m = some (b0, s0) := by
              rw [hacc']
              unfold gbnStep
              rw [if_neg hskip]
              simp [hgt]
            have := hstepge _ _ hstep
            have hle := not_lt.mp hgt
            exact le_trans hle this
      · exact hrest m hm hon hnl
    · intro b0 s0 h0
      subst h0
      by_cases hskip : n.status ≠ "online" ∨ n.id = localId
      · have hstep : gbnStep localId criteria (some (b0, s0)) n = some (b0, s0) := by
          unfold gbnStep
          rw [if_pos hskip]
        exact hstepge _ _ hstep
      · by_cases hgt : calculateNodeScore n criteria > s0
        · have hstep : gbnStep localId criteria (some (b0, s0)) n
              = some (n, calculateNodeScore n criteria) := by
            unfold gbnStep
            rw [if_neg hskip]
            simp [hgt]
          exact le_trans (le_of_lt hgt) (hstepge _ _ hstep)
        · have hstep : gbnStep localId criteria (some (b0, s0)) n = some (b0, s0) := by
            unfold gbnStep
            rw [if_neg hskip]
            simp [hgt]
          exact hstepge _ _ hstep

/-- When one eligible node strictly dominates every other eligible node's
score, `GetBestNode` returns it, for any iteration order containing it. -/
theorem GetBestNode_unique (nodes : List MeshNode) (localId criteria : String)
    (x : MeshNode) (hx : x ∈ nodes) (hon : x.status = "online")
    (hnl : x.id ≠ localId)
    (huniq : ∀ y ∈ nodes, y.status = "online" → y.id ≠ localId → y ≠ x →
      calculateNodeScore y criteria < calculateNodeScore x criteria) :
    GetBestNode nodes localId criteria = .ok x := by
  cases hf : nodes.foldl (gbnStep localId criteria) none with
  | none =>
    have := (gbnFold_none_iff localId criteria nodes).mp hf x hx
    exact absurd ⟨hon, hnl⟩ this
  | some p =>
    obtain ⟨b, s⟩ := p
    rcases gbnFold_mem localId criteria nodes none b s hf with h | ⟨hbmem, hbon, hbnl, hbs⟩
    · exact absurd h (by simp)
    · have hge := (gbnFold_ge localId criteria nodes none b s hf).1 x hx hon hnl
      by_cases hbx : b = x
      · subst hbx
        unfold GetBestNode
        rw [hf]
      · have hlt := huniq b hbmem hbon hbnl hbx
        rw [hbs] at hge
        exact absurd (lt_of_le_of_lt hge hlt) (lt_irrefl _)

/-- Two mesh nodes that differ only in identity, so their scores coincide:
used to exhibit the tie behaviour of `GetBestNode`. -/
def nodeA : MeshNode := ⟨"id1", "a", "", "", 0, "online", 0, 0, 0, "", []⟩

/-- See `nodeA`. -/
def nodeB : MeshNode := ⟨"id2", "b", "", "", 0, "online", 0, 0, 0, "", []⟩

/-- Claim C5 is false on the code: `GetBestNode` ranges over the Go node
map, whose iteration order is unspecified, and keeps the first node seen
among equal maximal scores (strict `>`).  For a snapshot holding two
distinct nodes with identical attributes (hence the identical maximal
score), the iteration order starting at `nodeA` returns `nodeA` while the
iteration order starting at `nodeB` — a permutation of the same
snapshot — returns `nodeB`: two invocations need not return the same
node. -/
theorem GetBestNode_tie_nondet_cex :
    GetBestNode [nodeA, nodeB] "local" "x" = .ok nodeA ∧
      GetBestNode [nodeB, nodeA] "local" "x" = .ok nodeB ∧
      [nodeB, nodeA].Perm [nodeA, nodeB] ∧ nodeA ≠ nodeB := by
  have hsBA : calculateNodeScore nodeB "x" = calculateNodeScore nodeA "x" := rfl
  have hnotBA : ¬(calculateNodeScore nodeB "x" > calculateNodeScore nodeA "x") := by
    rw [hsBA]
    exact lt_irrefl _
  have hnotAB : ¬(calculateNodeScore nodeA "x" > calculateNodeScore nodeB "x") := by
    rw [hsBA]
    exact lt_irrefl _
  refine ⟨?_, ?_, List.Perm.swap nodeA nodeB [], by decide⟩
  · unfold GetBestNode
    rw [List.foldl_cons, List.foldl_cons, List.foldl_nil]
    have h1 : gbnStep "local" "x" none nodeA
        = some (nodeA, calculateNodeScore nodeA "x") := by
      unfold gbnStep
      rw [if_neg (by decide)]
    rw [h1]
    have h2 : gbnStep "local" "x" (some (nodeA, calculateNodeScore nodeA "x")) nodeB
        = some (nodeA, calculateNodeScore nodeA "x") := by
      unfold gbnStep
      rw [if_neg (by decide)]
      show (if calculateNodeScore nodeB "x" > calculateNodeScore nodeA "x"
        then some (nodeB, calculateNodeScore nodeB "x")
        else some (nodeA, calculateNodeScore nodeA "x"))
          = some (nodeA, calculateNodeScore nodeA "x")
      rw [if_neg hnotBA]
    rw [h2]
  · unfold GetBestNode
    rw [List.foldl_cons, List.foldl_cons, List.foldl_nil]
    have h1 : gbnStep "local" "x" none nodeB
        = some (nodeB, calculateNodeScore nodeB "x") := by
      unfold gbnStep
      rw [if_neg (by decide)]
    rw [h1]
    have h2 : gbnStep "local" "x" (some (nodeB, calculateNodeScore nodeB "x")) nodeA
        = some (nodeB, calculateNodeScore nodeB "x") := by
      unfold gbnStep
      rw [if_neg (by decide)]
      show (if calculateNodeScore nodeA "x" > calculateNodeScore nodeB "x"
        then some (nodeA, calculateNodeScore nodeA "x")
        else some (nodeB, calculateNodeScore nodeB "x"))
          = some (nodeB, calculateNodeScore nodeB "x")
      rw [if_neg hnotAB]
    rw [h2]

/-- Claim C5 (amended): `GetBestNode` is deterministic whenever the
maximal score is attained by a single node: for any two iteration orders
of the same snapshot (`nodes1.Perm nodes2`), both invocations return that
node.  (With several nodes at the identical maximal score the result
depends on the map iteration order — see the counterexample.) -/
theorem GetBestNode_unique_max_det (nodes1 nodes2 : List MeshNode)
    (localId criteria : String) (x : MeshNode)
    (hperm : nodes1.Perm nodes2)
    (hx : x ∈ nodes1) (hon : x.status = "online") (hnl : x.id ≠ localId)
    (huniq : ∀ y ∈ nodes1, y.status = "online" → y.id ≠ localId → y ≠ x →
      calculateNodeScore y criteria < calculateNodeScore x criteria) :
    GetBestNode nodes1 localId criteria = .ok x ∧
      GetBestNode nodes2 localId criteria = .ok x := by
  constructor
  · exact GetBestNode_unique nodes1 localId criteria x hx hon hnl huniq
  · exact GetBestNode_unique nodes2 localId criteria x (hperm.mem_iff.mp hx) hon hnl
      (fun y hy => huniq y (hperm.mem_iff.mpr hy))

/-- Witness for `GetBestNode_unique_max_det` at a concrete input: a
lightly-loaded node beats a fully-loaded one in either iteration order. -/
theorem GetBestNode_unique_max_det_witness :
    GetBestNode [⟨"c1", "c", "", "", 0, "online", 0, 0, 0, "", []⟩,
        ⟨"d1", "d", "", "", 0, "online", 0, 1, 0, "", []⟩] "local" "x"
      = .ok ⟨"c1", "c", "", "", 0, "online", 0, 0, 0, "", []⟩ ∧
      GetBestNode [⟨"d1", "d", "", "", 0, "online", 0, 1, 0, "", []⟩,
          ⟨"c1", "c", "", "", 0, "online", 0, 0, 0, "", []⟩] "local" "x"
        = .ok ⟨"c1", "c", "", "", 0, "online", 0, 0, 0, "", []⟩ := by
  have hlt : calculateNodeScore ⟨"d1", "d", "", "", 0, "online", 0, 1, 0, "", []⟩ "x"
      < calculateNodeScore ⟨"c1", "c", "", "", 0, "online", 0, 0, 0, "", []⟩ "x" := by
    norm_num [calculateNodeScore, (by decide : ¬("" : String) = "x")]
  exact GetBestNode_unique_max_det
    [⟨"c1", "c", "", "", 0, "online", 0, 0, 0, "", []⟩,
      ⟨"d1", "d", "", "", 0, "online", 0, 1, 0, "", []⟩]
    [⟨"d1", "d", "", "", 0, "online", 0, 1, 0, "", []⟩,
      ⟨"c1", "c", "", "", 0, "online", 0, 0, 0, "", []⟩]
    "local" "x" ⟨"c1", "c", "", "", 0, "online", 0, 0, 0, "", []⟩
    (List.Perm.swap _ _ [])
    (List.mem_cons_self _ _) rfl (by decide)
    (by
      intro y hy hon hnl hne
      rcases List.mem_cons.mp hy with h | h
      · exact absurd h hne
      · rcases List.mem_cons.mp h with h | h
        · rw [h]
          exact hlt
        · simp at h)

/-- The node score exactly as claim C6's formula states it, with an
unconditional region-match bonus.  This definition follows the spec's
words, to be compared with `calculateNodeScore` from the code. -/
def specNodeScore (node : MeshNode) (criteria : String) : ℚ :=
  (1000 / (((node.latency / 1000000 : Nat) : ℚ) + 1)) * 0.4
    + (1 - node.loadScore) * 0.3
    + (if node.status = "online" then 100 else 0)
    + (if node.region = criteria then 50 else 0)

/-- A fully-loaded online node with empty region: under the claimed
formula with empty criteria it earns the +50 region bonus; under the code
it does not. -/
def nodeHome : MeshNode := ⟨"h1", "h", "", "", 0, "online", 0, 1, 0, "", []⟩

/-- A lightly-loaded online node in region `"nyc"`. -/
def nodeAway : MeshNode := ⟨"a1", "a", "", "", 0, "online", 0, 0, 0, "nyc", []⟩

/-- Claim C6 is false on the code at empty criteria: the code only grants
the +50 region bonus when the criteria string is non-empty
(`criteria != "" && node.Region == criteria`), while the claimed formula
`… + 50×(region==criteria)` grants it whenever the strings are equal.  At
`criteria = ""`, `nodeHome` (region `""`, load 1) scores 500 in the code
but 550 under the claimed formula, so the claimed formula's maximum is
`nodeHome` while `GetBestNode` returns `nodeAway` (code score 500.3,
claimed-formula score 500.3): the returned node does not maximise the
claimed score. -/
theorem GetBestNode_score_formula_cex :
    calculateNodeScore nodeHome "" ≠ specNodeScore nodeHome "" ∧
      GetBestNode [nodeHome, nodeAway] "local" "" = .ok nodeAway ∧
      specNodeScore nodeAway "" < specNodeScore nodeHome "" := by
  have hgt : calculateNodeScore nodeAway "" > calculateNodeScore nodeHome "" := by
    norm_num [calculateNodeScore, nodeAway, nodeHome]
  refine ⟨by norm_num [calculateNodeScore, specNodeScore, nodeHome], ?_,
    by norm_num [specNodeScore, nodeAway, nodeHome,
      (by decide : ¬("nyc" : String) = "")]⟩
  unfold GetBestNode
  rw [List.foldl_cons, List.foldl_cons, List.foldl_nil]
  have h1 : gbnStep "local" "" none nodeHome
      = some (nodeHome, calculateNodeScore nodeHome "") := by
    unfold gbnStep
    rw [if_neg (by decide)]
  rw [h1]
  have h2 : gbnStep "local" "" (some (nodeHome, calculateNodeScore nodeHome ""))
      nodeAway = some (nodeAway, calculateNodeScore nodeAway "") := by
    unfold gbnStep
    rw [if_neg (by decide)]
    show (if calculateNodeScore nodeAway "" > calculateNodeScore nodeHome ""
      then some (nodeAway, calculateNodeScore nodeAway "")
      else some (nodeHome, calculateNodeScore nodeHome ""))
        = some (nodeAway, calculateNodeScore nodeAway "")
    rw [if_pos hgt]
  rw [h2]

/-- Claim C6 (amended): `GetBestNode(criteria)` considers exactly the
online, non-local nodes, scoring them with `calculateNodeScore` — which
agrees with the claimed weighted formula whenever the criteria string is
non-empty, the region bonus additionally requiring non-empty criteria in
the code —, returns a considered node of maximal score, and fails with
the no-available-nodes error exactly when no node qualifies. -/
theorem GetBestNode_max_score (nodes : List MeshNode) (localId criteria : String) :
    (∀ x, GetBestNode nodes localId criteria = .ok x →
      x ∈ nodes ∧ x.status = "online" ∧ x.id ≠ localId ∧
        ∀ y ∈ nodes, y.status = "online" → y.id ≠ localId →
          calculateNodeScore y criteria ≤ calculateNodeScore x criteria) ∧
      (GetBestNode nodes localId criteria = .error "no available nodes found" ↔
        ∀ y ∈ nodes, ¬(y.status = "online" ∧ y.id ≠ localId)) ∧
      (criteria ≠ "" →
        ∀ node, calculateNodeScore node criteria = specNodeScore node criteria) := by
  refine ⟨?_, ?_, ?_⟩
  · intro x hok
    cases hf : nodes.foldl (gbnStep localId criteria) none with
    | none =>
      unfold GetBestNode at hok
      rw [hf] at hok
      exact absurd hok (by simp)
    | some p =>
      obtain ⟨b, s⟩ := p
      unfold GetBestNode at hok
      rw [hf] at hok
      have hbx : b = x := by simpa using hok
      subst hbx
      rcases gbnFold_mem localId criteria nodes none b s hf with h | ⟨hmem, hon, hnl, hs⟩
      · exact absurd h (by simp)
      · refine ⟨hmem, hon, hnl, ?_⟩
        intro y hy hyon hynl
        have := (gbnFold_ge localId criteria nodes none b s hf).1 y hy hyon hynl
        rwa [hs] at this
  · constructor
    · intro herr
      cases hf : nodes.foldl (gbnStep localId criteria) none with
      | none => exact (gbnFold_none_iff localId criteria nodes).mp hf
      | some p =>
        obtain ⟨b, s⟩ := p
        unfold GetBestNode at herr
        rw [hf] at herr
        exact absurd herr (by simp)
    · intro hall
      have hf := (gbnFold_none_iff localId criteria nodes).mpr hall
      unfold GetBestNode
      rw [hf]
  · intro hc node
    unfold calculateNodeScore specNodeScore
    by_cases hon : node.status = "online" <;> by_cases hreg : node.region = criteria <;>
      simp [hon, hreg, hc]

/-- Witness for `GetBestNode_max_score` at a concrete input. -/
theorem GetBestNode_max_score_witness :
    (⟨"c1", "c", "", "", 0, "online", 0, 0, 0, "", []⟩ : MeshNode)
        ∈ [(⟨"c1", "c", "", "", 0, "online", 0, 0, 0, "", []⟩ : MeshNode)] ∧
      calculateNodeScore ⟨"c1", "c", "", "", 0, "online", 0, 0, 0, "", []⟩ "x"
        = specNodeScore ⟨"c1", "c", "", "", 0, "online", 0, 0, 0, "", []⟩ "x" := by
  refine ⟨List.mem_singleton_self _, ?_⟩
  exact (GetBestNode_max_score
    [⟨"c1", "c", "", "", 0, "online", 0, 0, 0, "", []⟩] "local" "x").2.2
    (by decide) ⟨"c1", "c", "", "", 0, "online", 0, 0, 0, "", []⟩

/-! ### Health checking and load balancing (mesh package) -/

/-- The per-node body of `performHealthCheck`: a failed ping flips an
online node offline (leaving latency and last-seen untouched); a
successful ping flips a non-online node online and refreshes last-seen
and latency. -/
def performHealthCheckNode (node : MeshNode) (probeResult : Option Nat)
    (now : Nat) : MeshNode :=
  match probeResult with
  | none => if node.status = "online" then { node with status := "offline" } else node
  | some lat =>
    let node' := if node.status ≠ "online" then { node with status := "online" } else node
    { node' with lastSeen := now, latency := lat }

/-- Go `performHealthCheck` from the mesh package: ping every node except the
local one and apply the per-node transition; `probe` gives each node's
ping outcome on this tick. -/
def performHealthCheck (nodes : List MeshNode) (localId : String)
    (probe : MeshNode → Option Nat) (now : Nat) : List MeshNode :=
  nodes.map (fun node =>
    if node.id = localId then node else performHealthCheckNode node (probe node) now)

/-- Claim C8: on a health-check tick, for a non-local node at position `i`
of the registry: a successful probe leaves it `"online"` (flipping it if
it was offline) with `lastSeen` and `latency` refreshed to the tick's
values; a failed probe flips an online node to `"offline"` and leaves its
`latency` and `lastSeen` untouched; and on any failed probe `lastSeen`
does not advance — it advances only on success. -/
theorem performHealthCheck_transitions (nodes : List MeshNode) (localId : String)
    (probe : MeshNode → Option Nat) (now : Nat) (i : Nat) (n n' : MeshNode)
    (hn : nodes[i]? = some n)
    (hn' : (performHealthCheck nodes localId probe now)[i]? = some n')
    (hlocal : n.id ≠ localId) :
    (∀ lat, probe n = some lat →
      n'.status = "online" ∧ n'.lastSeen = now ∧ n'.latency = lat) ∧
      (probe n = none → n.status = "online" →
        n'.status = "offline" ∧ n'.latency = n.latency ∧ n'.lastSeen = n.lastSeen) ∧
      (probe n = none → n'.lastSeen = n.lastSeen) := by
  have hmap : (performHealthCheck nodes localId probe now)[i]?
      = (nodes[i]?).map (fun node =>
          if node.id = localId then node
          else performHealthCheckNode node (probe node) now) := by
    unfold performHealthCheck
    exact List.getElem?_map _ _ _
  rw [hmap, hn, Option.map_some'] at hn'
  have hn2 : (if n.id = localId then n
      else performHealthCheckNode n (probe n) now) = n' := Option.some.inj hn'
  rw [if_neg hlocal] at hn2
  subst hn2
  refine ⟨?_, ?_, ?_⟩
  · intro lat hp
    unfold performHealthCheckNode
    rw [hp]
    by_cases hon : n.status = "online"
    · simp [hon]
    · simp [hon]
  · intro hp hon
    unfold performHealthCheckNode
    rw [hp]
    simp [hon]
  · intro hp
    unfold performHealthCheckNode
    rw [hp]
    by_cases hon : n.status = "online" <;> simp [hon]

/-- Witness for `performHealthCheck_transitions` at a concrete input: an
offline node whose probe succeeds with latency 5 at tick time 7. -/
theorem performHealthCheck_transitions_witness :
    (performHealthCheck [⟨"n1", "n", "", "", 0, "offline", 3, 0, 9, "", []⟩]
          "local" (fun _ => some 5) 7)[0]?
        = some ⟨"n1", "n", "", "", 0, "online", 7, 0, 5, "", []⟩ ∧
      (⟨"n1", "n", "", "", 0, "online", 7, 0, 5, "", []⟩ : MeshNode).status
          = "online" ∧
        (⟨"n1", "n", "", "", 0, "online", 7, 0, 5, "", []⟩ : MeshNode).lastSeen = 7 ∧
        (⟨"n1", "n", "", "", 0, "online", 7, 0, 5, "", []⟩ : MeshNode).latency = 5 := by
  refine ⟨by decide, ?_⟩
  exact (performHealthCheck_transitions
    [⟨"n1", "n", "", "", 0, "offline", 3, 0, 9, "", []⟩] "local" (fun _ => some 5) 7
    0 ⟨"n1", "n", "", "", 0, "offline", 3, 0, 9, "", []⟩
    ⟨"n1", "n", "", "", 0, "online", 7, 0, 5, "", []⟩
    (by decide) (by decide) (by decide)).1 5 rfl

/-- Go `getHealthyNodes` from the mesh package: the online, non-local nodes. -/
def getHealthyNodes (nodes : List MeshNode) (localId : String) : List MeshNode :=
  nodes.filter (fun n => n.status == "online" && n.id != localId)

/-- The loop body of `leastConnectionsSelect`: a strictly smaller load
score becomes the new best, starting from the sentinel `bestLoad = 1.0`. -/
def lcStep (acc : Option MeshNode × ℚ) (node : MeshNode) : Option MeshNode × ℚ :=
  if node.loadScore < acc.2 then (some node, node.loadScore) else acc

/-- Go `leastConnectionsSelect` from the mesh package; returns `none` — Go
`nil` — when no node has load score below the sentinel. -/
def leastConnectionsSelect (nodes : List MeshNode) : Option MeshNode :=
  (nodes.foldl lcStep (none, 1)).1

/-- The loop body of `latencyBasedSelect`: a strictly smaller latency
becomes the new best, starting from the sentinel `bestLatency = time.Hour`. -/
def lbStep (acc : Option MeshNode × Nat) (node : MeshNode) : Option MeshNode × Nat :=
  if node.latency < acc.2 then (some node, node.latency) else acc

/-- Go `latencyBasedSelect` from the mesh package; returns `none` — Go
`nil` — when no node has latency below one hour. -/
def latencyBasedSelect (nodes : List MeshNode) : Option MeshNode :=
  (nodes.foldl lbStep (none, hourNs)).1

/-- Go `roundRobinSelect` from the mesh package: index the healthy list by
the wall-clock second modulo its length. -/
def roundRobinSelect (nodes : List MeshNode) (nowSec : Nat) : Option MeshNode :=
  if h : nodes.length = 0 then none
  else some (nodes.get ⟨nowSec % nodes.length, Nat.mod_lt _ (Nat.pos_of_ne_zero h)⟩)

/-- Go `LoadBalance` from the mesh package: error when the healthy set is
empty, otherwise dispatch on the configured policy (unknown policies fall
back to latency-based selection); the selected node may be Go `nil`
(`none`) with a nil error. -/
def LoadBalance (policy : String) (nodes : List MeshNode) (localId : String)
    (nowSec : Nat) : Except String (Option MeshNode) :=
  let healthy := getHealthyNodes nodes localId
  if healthy.length = 0 then .error "no healthy nodes available"
  else if policy = "round_robin" then .ok (roundRobinSelect healthy nowSec)
  else if policy = "least_connections" then .ok (leastConnectionsSelect healthy)
  else if policy = "latency" then .ok (latencyBasedSelect healthy)
  else .ok (latencyBasedSelect healthy)

theorem lbFold_stay :
    ∀ (nodes : List MeshNode) (acc : Option MeshNode × Nat),
      (∀ n ∈ nodes, ¬n.latency < acc.2) → nodes.foldl lbStep acc = acc := by
  intro nodes
  induction nodes with
  | nil => intro acc _; rfl
  | cons n rest ih =>
    intro acc h
    rw [List.foldl_cons]
    have hstep : lbStep acc n = acc := by
      unfold lbStep
      rw [if_neg (h n (List.mem_cons_self _ _))]
    rw [hstep]
    exact ih acc (fun m hm => h m (List.mem_cons_of_mem _ hm))

theorem lcFold_stay :
    ∀ (nodes : List MeshNode) (acc : Option MeshNode × ℚ),
      (∀ n ∈ nodes, ¬n.loadScore < acc.2) → nodes.foldl lcStep acc = acc := by
  intro nodes
  induction nodes with
  | nil => intro acc _; rfl
  | cons n rest ih =>
    intro acc h
    rw [List.foldl_cons]
    have hstep : lcStep acc n = acc := by
      unfold lcStep
      rw [if_neg (h n (List.mem_cons_self _ _))]
    rw [hstep]
    exact ih acc (fun m hm => h m (List.mem_cons_of_mem _ hm))

/-- Claim C10: with a non-empty healthy set, `LoadBalance` can return
neither a node nor an error: under `"latency"` it returns Go `(nil, nil)`
(modelled `.ok none`) whenever every healthy node's latency is at least
one hour, and under `"least_connections"` it returns `(nil, nil)`
whenever every healthy node's load score is at least `1.0`. -/
theorem LoadBalance_nil_nil (nodes : List MeshNode) (localId : String)
    (nowSec : Nat) (hne : getHealthyNodes nodes localId ≠ []) :
    ((∀ n ∈ getHealthyNodes nodes localId, hourNs ≤ n.latency) →
      LoadBalance "latency" nodes localId nowSec = .ok none) ∧
      ((∀ n ∈ getHealthyNodes nodes localId, (1 : ℚ) ≤ n.loadScore) →
        LoadBalance "least_connections" nodes localId nowSec = .ok none) := by
  have hlen : ¬(getHealthyNodes nodes localId).length = 0 := by
    intro h
    exact hne (List.length_eq_zero.mp h)
  constructor
  · intro hall
    unfold LoadBalance
    rw [if_neg hlen, if_neg (by decide : ¬("latency" : String) = "round_robin"),
      if_neg (by decide : ¬("latency" : String) = "least_connections"),
      if_pos (rfl : ("latency" : String) = "latency")]
    have : latencyBasedSelect (getHealthyNodes nodes localId) = none := by
      unfold latencyBasedSelect
      rw [lbFold_stay _ _ (fun n hn => Nat.not_lt.mpr (hall n hn))]
    rw [this]
  · intro hall
    unfold LoadBalance
    rw [if_neg hlen,
      if_neg (by decide : ¬("least_connections" : String) = "round_robin"),
      if_pos (rfl : ("least_connections" : String) = "least_connections")]
    have : leastConnectionsSelect (getHealthyNodes nodes localId) = none := by
      unfold leastConnectionsSelect
      rw [lcFold_stay _ _ (fun n hn => not_lt.mpr (hall n hn))]
    rw [this]

/-- Witness for `LoadBalance_nil_nil` at a concrete input: one healthy
node with latency exactly one hour and load score exactly `1.0`. -/
theorem LoadBalance_nil_nil_witness :
    LoadBalance "latency" [⟨"n1", "n", "", "", 0, "online", 0, 1, 3600000000000,
        "", []⟩] "local" 0 = .ok none ∧
      LoadBalance "least_connections" [⟨"n1", "n", "", "", 0, "online", 0, 1,
          3600000000000, "", []⟩] "local" 0 = .ok none := by
  have h := LoadBalance_nil_nil
    [⟨"n1", "n", "", "", 0, "online", 0, 1, 3600000000000, "", []⟩] "local" 0
    (by decide)
  refine ⟨h.1 ?_, h.2 ?_⟩
  · intro n hn
    rcases List.mem_singleton.mp hn with rfl
    decide
  · intro n hn
    rcases List.mem_singleton.mp hn with rfl
    norm_num

end SSHTunnel
